import Mathlib

/-!
Shallow embedding of the `loan` package of github.com/katcipis/loaner
(`loan/loan.go`), together with the parts of the shopspring/decimal
library (v1.2.0, the version contemporary with this code) that the
package uses.

Decimals are modelled at the level of their rational value:
`decimal.Decimal` values are rationals, `Add`/`Sub`/`Mul`/`Neg` are exact,
`Div` rounds to `decimal.DivisionPrecision = 16` decimal places, half away
from zero, and `RoundBank` rounds half to even.  `time.Time` is modelled
by its wall-clock components (the only thing `CreatePlan` reads from it),
and `time.Date` by the month/day normalization Go performs.
-/

set_option linter.unusedVariables false

namespace Loaner

/-- Floor of a rational.  A computable synonym of `Int.floor` on `ℚ`
(see `rfloor_eq`). -/
def rfloor (q : ℚ) : ℤ := q.num / q.den

/-- Ceiling of a rational, counterpart of `rfloor`. -/
def rceil (q : ℚ) : ℤ := -rfloor (-q)

/-- Embeds `decimal.Decimal.IntPart`: integer part, truncated toward zero. -/
def intPartQ (q : ℚ) : ℤ := if 0 ≤ q then rfloor q else rceil q

/-- Rounding a rational to the nearest integer, ties away from zero.
This is the rounding mode of `decimal.Decimal.DivRound`. -/
def roundAway (q : ℚ) : ℤ := if 0 ≤ q then rfloor (q + 1/2) else rceil (q - 1/2)

/-- Embeds `decimal.Decimal.Div`: division at
`decimal.DivisionPrecision = 16` decimal places, rounding half away from
zero.  (Go panics on a divisor whose value is zero; each call site in the
embedded code either has a provably nonzero divisor or models the zero
case explicitly.) -/
def divRound16 (x y : ℚ) : ℚ := (roundAway (x / y * 10 ^ 16) : ℚ) / 10 ^ 16

/-- Embeds `decimal.Decimal.RoundBank 2`: round to 2 decimal places,
ties to even. -/
def roundBank2 (x : ℚ) : ℚ :=
  let y := x * 100
  let f := rfloor y
  if y - f < 1/2 then (f : ℚ) / 100
  else if 1/2 < y - f then ((f : ℚ) + 1) / 100
  else if f % 2 = 0 then (f : ℚ) / 100 else ((f : ℚ) + 1) / 100

/-- The body of shopspring's `Decimal.Pow` (v1.2.0):

```go
func (d Decimal) Pow(d2 Decimal) Decimal {
    var temp Decimal
    if d2.IntPart() == 0 {
        return NewFromFloat(1)
    }
    temp = d.Pow(d2.Div(NewFromFloat(2)))
    if d2.IntPart()%2 == 0 {
        return temp.Mul(temp)
    }
    if d2.IntPart() > 0 {
        return temp.Mul(temp).Mul(d)
    }
    return temp.Mul(temp).Div(d)
}
```

Go's `%` and Lean's `%` agree on the `== 0` test used here, and
`NewFromFloat(1)`/`NewFromFloat(2)` are exactly `1`/`2`.  The `fuel`
argument only bounds the recursion depth; `decimalPow` supplies enough
fuel that the base case `fuel = 0` is never reached (the measure
`2 * (intPartQ e).natAbs`, plus one when `e` is not an integer, strictly
decreases across the recursive call, as the induction inside
`powAux_bounds` verifies), so `powAux` agrees with Go's terminating
recursion. -/
def powAux (d : ℚ) : ℕ → ℚ → ℚ
  | 0, _ => 1
  | fuel + 1, e =>
    if intPartQ e = 0 then 1
    else
      let temp := powAux d fuel (divRound16 e 2)
      if intPartQ e % 2 = 0 then temp * temp
      else if 0 < intPartQ e then temp * temp * d
      else divRound16 (temp * temp) d

/-- Embeds `decimal.Decimal.Pow` (value level). -/
def decimalPow (d e : ℚ) : ℚ := powAux d (2 * (intPartQ e).natAbs + 2) e

/-- Embeds `loan.calculateMonthlyInterestRate`. -/
def calculateMonthlyInterestRate (annualInterestRate : ℚ) : ℚ :=
  divRound16 annualInterestRate 12

/-- Embeds `loan.fromPercentToDecimal`. -/
def fromPercentToDecimal (percentVal : ℚ) : ℚ :=
  divRound16 percentVal 100

/-- The error sentinel `loan.ErrInvalidParameter`.  All error returns of the
package wrap this single sentinel (with varying message text, which the
claims do not inspect), and callers check it with `errors.Is`. -/
inductive LoanError where
  | invalidParameter : LoanError
deriving DecidableEq

/-- Outcome of calling a Go function that returns `(T, error)`: a runtime
panic, a non-nil error, or a value together with a nil error. -/
inductive GoResult (α : Type) where
  | panicked : GoResult α
  | err : LoanError → GoResult α
  | ok : α → GoResult α
deriving DecidableEq

/-- Embeds `loan.CalculateAnnuity`.  `durationInMonths` is a Go `int`,
modelled as `ℤ` (no claim approaches the 64-bit bounds).  The final
`numerator.Div(denominator)` panics in Go when the denominator's value is
zero; that case is modelled by `.panicked`. -/
def CalculateAnnuity (totalLoanAmount annualInterestRate : ℚ)
    (durationInMonths : ℤ) : GoResult ℚ :=
  if durationInMonths ≤ 0 then .err .invalidParameter
  else if totalLoanAmount ≤ 0 then .err .invalidParameter
  else if annualInterestRate ≤ 0 then .err .invalidParameter
  else
    let monthlyInterestRate :=
      fromPercentToDecimal (calculateMonthlyInterestRate annualInterestRate)
    let numerator := totalLoanAmount * monthlyInterestRate
    let denominator := 1 - decimalPow (1 + monthlyInterestRate) (-durationInMonths)
    if denominator = 0 then .panicked
    else .ok (roundBank2 (divRound16 numerator denominator))

/-- Wall-clock components of a Go `time.Time`, which is what the accessors
`Year()`, `Month()`, `Day()` used by `CreatePlan` return: the components
the RFC 3339 input text spells out, in its own offset.  Hour, minute,
second and offset are carried so that theorems can state that they are
discarded.  A value obtained from a real `time.Time` has
`1 ≤ month ≤ 12` and `1 ≤ day ≤ 31`. -/
structure GoTime where
  year : ℤ
  month : ℤ
  day : ℤ
  hour : ℤ
  minute : ℤ
  second : ℤ
  offset : ℤ
deriving DecidableEq

/-- The result of Go's `time.Date(y, m, d, 0, 0, 0, 0, time.UTC)`:
a normalized calendar date at UTC midnight. -/
structure GoDate where
  year : ℤ
  month : ℤ
  day : ℤ
deriving DecidableEq

/-- Go's leap-year rule (`time.isLeap`). -/
def isLeapYear (y : ℤ) : Bool :=
  y % 4 = 0 && (!(y % 100 = 0) || y % 400 = 0)

/-- Days in a month of the proleptic Gregorian calendar, as Go's time
package computes it. -/
def daysInMonth (y m : ℤ) : ℤ :=
  if m = 2 then (if isLeapYear y then 29 else 28)
  else if m = 4 ∨ m = 6 ∨ m = 9 ∨ m = 11 then 30
  else 31

/-- Go's `norm(year, month-1, 12)` step of `time.Date`: bring the
zero-based month into `[0, 12)` by floor division, moving whole years. -/
def normMonth (year month : ℤ) : ℤ × ℤ :=
  (year + (month - 1).fdiv 12, (month - 1).emod 12 + 1)

/-- Go's `time.Date(year, month, day, 0, 0, 0, 0, time.UTC)`, for the
arguments `CreatePlan` can produce: any month, and `1 ≤ day ≤ 31` (the
day always comes from a real `time.Time`).  Go normalizes the month into
the year first and then converts to an absolute day count, so a `day`
past the end of the normalized month overflows into the following month;
with `day ≤ 31` a single overflow step is exact. -/
def timeDate (year month day : ℤ) : GoDate :=
  let ym := normMonth year month
  if daysInMonth ym.1 ym.2 < day then
    let ym2 := normMonth ym.1 (ym.2 + 1)
    ⟨ym2.1, ym2.2, day - daysInMonth ym.1 ym.2⟩
  else
    ⟨ym.1, ym.2, day⟩

/-- A `loan.Payment`.  The zero value `decimal.Decimal{}` of the monetary
fields has value `0`. -/
structure Payment where
  date : GoDate
  paymentAmount : ℚ
  interest : ℚ
  principal : ℚ
  initialOutstandingPrincipal : ℚ
  remainingOutstandingPrincipal : ℚ
deriving DecidableEq

/-- Embeds `loan.CreatePlan`, exactly as in `loan/loan.go`:

```go
func CreatePlan(totalLoanAmount, annualInterestRate decimal.Decimal,
    durationInMonths int, start time.Time) ([]Payment, error) {
    payments := make([]Payment, durationInMonths)
    for i := range payments {
        // TODO: handle corner cases
        year := start.Year()
        month := start.Month() + time.Month(i)
        day := start.Day()
        payments[i] = Payment{
            Date: time.Date(year, month, day, 0, 0, 0, 0, time.UTC),
        }
    }
    return payments, nil
}
```

`make([]Payment, n)` panics for `n < 0`; otherwise each slot keeps the
zero value of every field except `Date`.  No parameter validation is
performed and `CalculateAnnuity` is never invoked. -/
def CreatePlan (totalLoanAmount annualInterestRate : ℚ) (durationInMonths : ℤ)
    (start : GoTime) : GoResult (List Payment) :=
  if durationInMonths < 0 then .panicked
  else .ok <| (List.range durationInMonths.toNat).map fun i : ℕ =>
    { date := timeDate start.year (start.month + (i : ℤ)) start.day
      paymentAmount := 0
      interest := 0
      principal := 0
      initialOutstandingPrincipal := 0
      remainingOutstandingPrincipal := 0 }

/-- The annuity-payment formula exactly as the spec states it: exact
rational arithmetic with monthly rate `r = (annualInterestRate/100)/12`
and the result rounded to 2 places, half to even.  Defined only to compare
the code's fixed-precision computation against the spec's formula. -/
def annuitySpecFormula (totalLoanAmount annualInterestRate : ℚ)
    (durationInMonths : ℕ) : ℚ :=
  roundBank2 (totalLoanAmount * (annualInterestRate / 100 / 12) /
    (1 - (1 + annualInterestRate / 100 / 12) ^ (-(durationInMonths : ℤ))))

theorem rfloor_eq (q : ℚ) : rfloor q = ⌊q⌋ := (Rat.floor_def).symm

theorem rceil_eq (q : ℚ) : rceil q = ⌈q⌉ := by
  rw [rceil, rfloor_eq, Int.floor_neg, neg_neg]

theorem rfloor_eq_of (q : ℚ) (z : ℤ) (h1 : (z : ℚ) ≤ q) (h2 : q < z + 1) :
    rfloor q = z := by
  rw [rfloor_eq]
  exact Int.floor_eq_iff.mpr ⟨h1, h2⟩

theorem rceil_eq_of (q : ℚ) (z : ℤ) (h1 : (z : ℚ) - 1 < q) (h2 : q ≤ z) :
    rceil q = z := by
  rw [rceil_eq]
  exact Int.ceil_eq_iff.mpr ⟨h1, h2⟩

theorem rfloor_le (q : ℚ) : (rfloor q : ℚ) ≤ q := by
  rw [rfloor_eq]; exact Int.floor_le q

theorem lt_rfloor_add_one (q : ℚ) : q < rfloor q + 1 := by
  rw [rfloor_eq]; exact Int.lt_floor_add_one q

theorem le_rceil (q : ℚ) : q ≤ (rceil q : ℚ) := by
  rw [rceil_eq]; exact Int.le_ceil q

theorem rceil_lt_add_one (q : ℚ) : (rceil q : ℚ) < q + 1 := by
  rw [rceil_eq]; exact Int.ceil_lt_add_one q

theorem intPartQ_of_nonneg (q : ℚ) (z : ℤ) (h0 : 0 ≤ q)
    (h1 : (z : ℚ) ≤ q) (h2 : q < z + 1) : intPartQ q = z := by
  rw [intPartQ, if_pos h0]; exact rfloor_eq_of q z h1 h2

theorem intPartQ_of_neg (q : ℚ) (z : ℤ) (h0 : ¬ 0 ≤ q)
    (h1 : (z : ℚ) - 1 < q) (h2 : q ≤ z) : intPartQ q = z := by
  rw [intPartQ, if_neg h0]; exact rceil_eq_of q z h1 h2

theorem intPartQ_eq_rceil_of_nonpos (q : ℚ) (h : q ≤ 0) : intPartQ q = rceil q := by
  rw [intPartQ]
  split
  · have hq0 : q = 0 := le_antisymm h (by assumption)
    subst hq0
    rw [rfloor_eq, rceil_eq, Int.floor_zero, Int.ceil_zero]
  · rfl

theorem intPartQ_intCast (z : ℤ) : intPartQ (z : ℚ) = z := by
  rcases le_or_lt 0 z with h | h
  · exact intPartQ_of_nonneg _ z (by exact_mod_cast h) (le_refl _) (by linarith)
  · refine intPartQ_of_neg _ z (not_le.mpr (by exact_mod_cast h)) (by linarith) (le_refl _)

theorem roundAway_le (q : ℚ) : (roundAway q : ℚ) ≤ q + 1/2 := by
  rw [roundAway]
  split
  · exact rfloor_le _
  · have := rceil_lt_add_one (q - 1/2)
    linarith

theorem le_roundAway (q : ℚ) : q - 1/2 ≤ (roundAway q : ℚ) := by
  rw [roundAway]
  split
  · have := lt_rfloor_add_one (q + 1/2)
    linarith
  · have := le_rceil (q - 1/2)
    linarith

theorem roundAway_nonneg (q : ℚ) (h : 0 ≤ q) : 0 ≤ roundAway q := by
  have h1 : ((0 : ℤ) : ℚ) ≤ q + 1/2 := by push_cast; linarith
  rw [roundAway, if_pos h, rfloor_eq]
  exact_mod_cast Int.le_floor.mpr h1

theorem roundAway_nonpos (q : ℚ) (h : q ≤ 0) : roundAway q ≤ 0 := by
  rw [roundAway]
  split
  · have hq0 : q = 0 := le_antisymm h (by assumption)
    subst hq0
    have : rfloor ((0 : ℚ) + 1/2) = 0 := rfloor_eq_of _ 0 (by norm_num) (by norm_num)
    omega
  · have h1 : q - 1/2 ≤ ((0 : ℤ) : ℚ) := by push_cast; linarith
    rw [rceil_eq]
    exact_mod_cast Int.ceil_le.mpr h1

theorem divRound16_of_nonneg (x y : ℚ) (z : ℤ) (h0 : 0 ≤ x / y * 10 ^ 16)
    (h1 : (z : ℚ) ≤ x / y * 10 ^ 16 + 1/2) (h2 : x / y * 10 ^ 16 + 1/2 < z + 1) :
    divRound16 x y = (z : ℚ) / 10 ^ 16 := by
  rw [divRound16, roundAway, if_pos h0, rfloor_eq_of _ z h1 h2]

theorem divRound16_of_neg (x y : ℚ) (z : ℤ) (h0 : ¬ 0 ≤ x / y * 10 ^ 16)
    (h1 : (z : ℚ) - 1 < x / y * 10 ^ 16 - 1/2) (h2 : x / y * 10 ^ 16 - 1/2 ≤ z) :
    divRound16 x y = (z : ℚ) / 10 ^ 16 := by
  rw [divRound16, roundAway, if_neg h0, rceil_eq_of _ z h1 h2]

theorem divRound16_le (x y : ℚ) : divRound16 x y ≤ x / y + 1 / (2 * 10 ^ 16) := by
  rw [divRound16]
  have h := roundAway_le (x / y * 10 ^ 16)
  rw [div_le_iff₀ (by norm_num : (0:ℚ) < 10 ^ 16)]
  linarith

theorem le_divRound16 (x y : ℚ) : x / y - 1 / (2 * 10 ^ 16) ≤ divRound16 x y := by
  rw [divRound16]
  have h := le_roundAway (x / y * 10 ^ 16)
  rw [le_div_iff₀ (by norm_num : (0:ℚ) < 10 ^ 16)]
  linarith

theorem divRound16_nonneg (x y : ℚ) (h : 0 ≤ x / y) : 0 ≤ divRound16 x y := by
  have := roundAway_nonneg (x / y * 10 ^ 16) (by positivity)
  rw [divRound16]
  positivity

theorem divRound16_nonpos (x y : ℚ) (h : x / y ≤ 0) : divRound16 x y ≤ 0 := by
  have h1 : x / y * 10 ^ 16 ≤ 0 := by nlinarith
  have h2 := roundAway_nonpos (x / y * 10 ^ 16) h1
  rw [divRound16]
  apply div_nonpos_of_nonpos_of_nonneg _ (by norm_num)
  exact_mod_cast h2

theorem divRound16_scaled (x y : ℚ) : ∃ z : ℤ, divRound16 x y = (z : ℚ) / 10 ^ 16 :=
  ⟨roundAway (x / y * 10 ^ 16), rfl⟩

theorem roundBank2_of_lt_half (x : ℚ) (f : ℤ) (h1 : (f : ℚ) ≤ x * 100)
    (h2 : x * 100 < f + 1) (h3 : x * 100 - f < 1/2) :
    roundBank2 x = (f : ℚ) / 100 := by
  rw [roundBank2]
  rw [rfloor_eq_of (x * 100) f h1 h2]
  rw [if_pos h3]

theorem roundBank2_of_gt_half (x : ℚ) (f : ℤ) (h1 : (f : ℚ) ≤ x * 100)
    (h2 : x * 100 < f + 1) (h3 : 1/2 < x * 100 - f) :
    roundBank2 x = ((f : ℚ) + 1) / 100 := by
  rw [roundBank2]
  rw [rfloor_eq_of (x * 100) f h1 h2]
  rw [if_neg (by linarith), if_pos h3]

theorem powAux_succ (d : ℚ) (fuel : ℕ) (e : ℚ) :
    powAux d (fuel + 1) e =
      if intPartQ e = 0 then 1
      else if intPartQ e % 2 = 0 then
        powAux d fuel (divRound16 e 2) * powAux d fuel (divRound16 e 2)
      else if 0 < intPartQ e then
        powAux d fuel (divRound16 e 2) * powAux d fuel (divRound16 e 2) * d
      else divRound16 (powAux d fuel (divRound16 e 2) * powAux d fuel (divRound16 e 2)) d := rfl

theorem powAux_base (d : ℚ) (fuel : ℕ) (e : ℚ) (ht : intPartQ e = 0) :
    powAux d (fuel + 1) e = 1 := by
  rw [powAux_succ, ht, if_pos rfl]

theorem powAux_even (d : ℚ) (fuel : ℕ) (e : ℚ) (t : ℤ) (ht : intPartQ e = t)
    (h0 : ¬ t = 0) (h2 : t % 2 = 0) :
    powAux d (fuel + 1) e =
      powAux d fuel (divRound16 e 2) * powAux d fuel (divRound16 e 2) := by
  rw [powAux_succ, ht, if_neg h0, if_pos h2]

theorem powAux_odd_neg (d : ℚ) (fuel : ℕ) (e : ℚ) (t : ℤ) (ht : intPartQ e = t)
    (h0 : ¬ t = 0) (h2 : ¬ t % 2 = 0) (h3 : ¬ 0 < t) :
    powAux d (fuel + 1) e =
      divRound16 (powAux d fuel (divRound16 e 2) * powAux d fuel (divRound16 e 2)) d := by
  rw [powAux_succ, ht, if_neg h0, if_neg h2, if_neg h3]

theorem decimalPow_neg24 (d : ℚ) :
    decimalPow d (-24) =
      (let t15 := divRound16 (1 * 1) d
       let t3 := divRound16 (t15 * t15) d
       t3 * t3 * (t3 * t3) * (t3 * t3 * (t3 * t3))) := by
  have h24 : intPartQ (-24 : ℚ) = -24 :=
    intPartQ_of_neg _ _ (by norm_num) (by norm_num) (by norm_num)
  have h12 : intPartQ (-12 : ℚ) = -12 :=
    intPartQ_of_neg _ _ (by norm_num) (by norm_num) (by norm_num)
  have h6 : intPartQ (-6 : ℚ) = -6 :=
    intPartQ_of_neg _ _ (by norm_num) (by norm_num) (by norm_num)
  have h3 : intPartQ (-3 : ℚ) = -3 :=
    intPartQ_of_neg _ _ (by norm_num) (by norm_num) (by norm_num)
  have h15 : intPartQ (-3/2 : ℚ) = -1 :=
    intPartQ_of_neg _ _ (by norm_num) (by norm_num) (by norm_num)
  have h075 : intPartQ (-3/4 : ℚ) = 0 :=
    intPartQ_of_neg _ _ (by norm_num) (by norm_num) (by norm_num)
  have hd24 : divRound16 (-24) 2 = -12 := by
    rw [divRound16_of_neg (-24) 2 (-120000000000000000) (by norm_num) (by norm_num) (by norm_num)]
    norm_num
  have hd12 : divRound16 (-12) 2 = -6 := by
    rw [divRound16_of_neg (-12) 2 (-60000000000000000) (by norm_num) (by norm_num) (by norm_num)]
    norm_num
  have hd6 : divRound16 (-6) 2 = -3 := by
    rw [divRound16_of_neg (-6) 2 (-30000000000000000) (by norm_num) (by norm_num) (by norm_num)]
    norm_num
  have hd3 : divRound16 (-3) 2 = -3/2 := by
    rw [divRound16_of_neg (-3) 2 (-15000000000000000) (by norm_num) (by norm_num) (by norm_num)]
    norm_num
  have hd15 : divRound16 (-3/2) 2 = -3/4 := by
    rw [divRound16_of_neg (-3/2) 2 (-7500000000000000) (by norm_num) (by norm_num) (by norm_num)]
    norm_num
  have hf : 2 * (intPartQ (-24 : ℚ)).natAbs + 2 = 50 := by rw [h24]; rfl
  rw [decimalPow, hf]
  rw [show (50:ℕ) = 49 + 1 from rfl, powAux_even d 49 (-24) (-24) h24 (by decide) (by decide), hd24]
  rw [show (49:ℕ) = 48 + 1 from rfl, powAux_even d 48 (-12) (-12) h12 (by decide) (by decide), hd12]
  rw [show (48:ℕ) = 47 + 1 from rfl, powAux_even d 47 (-6) (-6) h6 (by decide) (by decide), hd6]
  rw [show (47:ℕ) = 46 + 1 from rfl,
    powAux_odd_neg d 46 (-3) (-3) h3 (by decide) (by decide) (by decide), hd3]
  rw [show (46:ℕ) = 45 + 1 from rfl,
    powAux_odd_neg d 45 (-3/2) (-1) h15 (by decide) (by decide) (by decide), hd15]
  rw [show (45:ℕ) = 44 + 1 from rfl, powAux_base d 44 (-3/4) h075]

theorem monthlyRate5 :
    fromPercentToDecimal (calculateMonthlyInterestRate 5) = 41666666666667 / 10 ^ 16 := by
  rw [calculateMonthlyInterestRate, fromPercentToDecimal]
  rw [divRound16_of_nonneg 5 12 4166666666666667 (by norm_num) (by norm_num) (by norm_num)]
  rw [divRound16_of_nonneg _ 100 41666666666667 (by norm_num) (by norm_num) (by norm_num)]
  norm_num

theorem annuity5000_24_pow :
    decimalPow (1 + 41666666666667 / 10 ^ 16) (-24) =
      (9876034477819322 : ℚ) ^ 8 / 10 ^ 128 := by
  simp only [decimalPow_neg24]
  rw [divRound16_of_nonneg (1 * 1) (1 + 41666666666667 / 10 ^ 16) 9958506224066390
    (by norm_num) (by norm_num) (by norm_num)]
  rw [divRound16_of_nonneg _ (1 + 41666666666667 / 10 ^ 16) 9876034477819322
    (by norm_num) (by norm_num) (by norm_num)]
  push_cast
  ring

theorem annuity5000_24_value :
    CalculateAnnuity 5000 5 24 = .ok (5484 / 25) := by
  have hden : (1 : ℚ) - (9876034477819322 : ℚ) ^ 8 / 10 ^ 128 ≠ 0 := by norm_num
  have hdiv : divRound16 (5000 * (41666666666667 / 10 ^ 16))
      (1 - (9876034477819322 : ℚ) ^ 8 / 10 ^ 128) =
      ((2193569486703432061 : ℤ) : ℚ) / 10 ^ 16 :=
    divRound16_of_nonneg _ _ 2193569486703432061 (by norm_num) (by norm_num) (by norm_num)
  have hround : roundBank2 (((2193569486703432061 : ℤ) : ℚ) / 10 ^ 16) = 5484 / 25 := by
    rw [roundBank2_of_gt_half _ 21935 (by norm_num) (by norm_num) (by norm_num)]
    norm_num
  rw [CalculateAnnuity]
  rw [if_neg (by norm_num : ¬ (24:ℤ) ≤ 0), if_neg (by norm_num : ¬ (5000:ℚ) ≤ 0),
    if_neg (by norm_num : ¬ (5:ℚ) ≤ 0)]
  simp only [monthlyRate5]
  rw [show (-(((24 : ℤ)) : ℚ)) = (-24 : ℚ) from by norm_num]
  rw [annuity5000_24_pow, if_neg hden, hdiv, hround]

theorem annuitySpec_5000_5_24 : annuitySpecFormula 5000 5 24 = 5484 / 25 := by
  rw [annuitySpecFormula]
  rw [roundBank2_of_gt_half _ 21935 (by norm_num) (by norm_num) (by norm_num)]
  norm_num

theorem intPartQ_nonpos (q : ℚ) (h : q ≤ 0) : intPartQ q ≤ 0 := by
  rw [intPartQ_eq_rceil_of_nonpos q h, rceil_eq]
  exact Int.ceil_le.mpr (by exact_mod_cast h)

theorem le_intPartQ_of_nonpos (q : ℚ) (h : q ≤ 0) : q ≤ (intPartQ q : ℚ) := by
  rw [intPartQ_eq_rceil_of_nonpos q h]; exact le_rceil q

theorem intPartQ_lt_add_one_of_nonpos (q : ℚ) (h : q ≤ 0) :
    (intPartQ q : ℚ) < q + 1 := by
  rw [intPartQ_eq_rceil_of_nonpos q h]; exact rceil_lt_add_one q

theorem powAux_bounds (d : ℚ) (hd : 1 + 1 / 10 ^ 16 ≤ d) :
    ∀ (fuel : ℕ) (e : ℚ), e ≤ 0 → (∃ z : ℤ, e = (z : ℚ) / 10 ^ 16) →
      2 * (intPartQ e).natAbs + (if ((intPartQ e : ℤ) : ℚ) = e then 0 else 1) < fuel →
      0 ≤ powAux d fuel e ∧ powAux d fuel e ≤ 1 ∧
        (intPartQ e ≠ 0 → powAux d fuel e < 1) := by
  intro fuel
  induction fuel with
  | zero => intro e _ _ hmu; omega
  | succ fuel ih =>
    intro e he hsc hmu
    by_cases h0 : intPartQ e = 0
    · rw [powAux_base d fuel e h0]
      exact ⟨by norm_num, le_refl 1, fun h => absurd h0 h⟩
    · have htle : intPartQ e ≤ 0 := intPartQ_nonpos e he
      have ht1 : intPartQ e ≤ -1 := by omega
      have htlb : e ≤ (intPartQ e : ℚ) := le_intPartQ_of_nonpos e he
      have htub : (intPartQ e : ℚ) < e + 1 := intPartQ_lt_add_one_of_nonpos e he
      have he'ub : divRound16 e 2 ≤ e / 2 + 1 / (2 * 10 ^ 16) := divRound16_le e 2
      have he'lb : e / 2 - 1 / (2 * 10 ^ 16) ≤ divRound16 e 2 := le_divRound16 e 2
      have he'0 : divRound16 e 2 ≤ 0 := divRound16_nonpos e 2 (by linarith)
      have hsc' : ∃ z : ℤ, divRound16 e 2 = (z : ℚ) / 10 ^ 16 := divRound16_scaled e 2
      have ht'le : intPartQ (divRound16 e 2) ≤ 0 := intPartQ_nonpos _ he'0
      have ht'lb : divRound16 e 2 ≤ (intPartQ (divRound16 e 2) : ℚ) :=
        le_intPartQ_of_nonpos _ he'0
      have ht'ub : (intPartQ (divRound16 e 2) : ℚ) < divRound16 e 2 + 1 :=
        intPartQ_lt_add_one_of_nonpos _ he'0
      have c1 : 2 * intPartQ (divRound16 e 2) ≥ intPartQ e - 1 := by
        have c1q : ((2 * intPartQ (divRound16 e 2) : ℤ) : ℚ) > (intPartQ e : ℚ) - 2 := by
          push_cast
          linarith
        have c1z : 2 * intPartQ (divRound16 e 2) > intPartQ e - 2 := by exact_mod_cast c1q
        omega
      have hb'le : (if ((intPartQ (divRound16 e 2) : ℤ) : ℚ) = divRound16 e 2
          then 0 else 1) ≤ 1 := by split <;> norm_num
      have hmu' : 2 * (intPartQ (divRound16 e 2)).natAbs +
          (if ((intPartQ (divRound16 e 2) : ℤ) : ℚ) = divRound16 e 2 then 0 else 1)
          < fuel := by
        by_cases ht2 : intPartQ e ≤ -2
        · omega
        · have htm1 : intPartQ e = -1 := by omega
          by_cases hbit : ((intPartQ e : ℤ) : ℚ) = e
          · have he1 : e = -1 := by rw [← hbit, htm1]; norm_num
            subst he1
            have ht'0 : intPartQ (divRound16 (-1) 2) = 0 := by
              apply intPartQ_of_neg _ 0
              · exact not_le.mpr (by linarith)
              · push_cast
                linarith
              · exact he'0
            rw [ht'0] at hb'le ⊢
            rw [htm1] at hmu
            rw [if_pos (by norm_num : ((-1 : ℤ) : ℚ) = (-1 : ℚ))] at hmu
            omega
          · rw [if_neg hbit] at hmu
            rw [htm1] at hmu
            have ht'm : intPartQ (divRound16 e 2) = 0 ∨ intPartQ (divRound16 e 2) = -1 := by
              omega
            rcases ht'm with h' | h'
            · omega
            · obtain ⟨z', hz'⟩ := hsc'
              have hz'ub : (z' : ℚ) ≤ -10 ^ 16 := by
                have : divRound16 e 2 ≤ -1 := by
                  rw [h'] at ht'lb
                  push_cast at ht'lb
                  linarith
                rw [hz'] at this
                rw [div_le_iff₀ (by norm_num : (0:ℚ) < 10 ^ 16)] at this
                linarith
              have hz'lb : (z' : ℚ) > -10 ^ 16 - 1/2 := by
                have hegt : e > -2 := by
                  have : ((-1 : ℤ) : ℚ) < e + 1 := by rw [← htm1]; exact htub
                  push_cast at this
                  linarith
                have : divRound16 e 2 > -1 - 1 / (2 * 10 ^ 16) := by linarith
                rw [hz'] at this
                rw [gt_iff_lt, lt_div_iff₀ (by norm_num : (0:ℚ) < 10 ^ 16)] at this
                linarith
              have hz'eq : z' = -10 ^ 16 := by
                have u1 : z' ≤ -10 ^ 16 := by exact_mod_cast hz'ub
                have u2 : z' > -10 ^ 16 - 1 := by
                  have : (z' : ℚ) > ((-10 ^ 16 - 1 : ℤ) : ℚ) := by push_cast; linarith
                  exact_mod_cast this
                omega
              have he'1 : divRound16 e 2 = -1 := by
                rw [hz', hz'eq]; norm_num
              rw [if_pos (by rw [h', he'1]; norm_num)]
              omega
      obtain ⟨ih0, ih1, ihlt⟩ := ih (divRound16 e 2) he'0 hsc' hmu'
      by_cases hpar : intPartQ e % 2 = 0
      · rw [powAux_even d fuel e (intPartQ e) rfl h0 hpar]
        have ht2 : intPartQ e ≤ -2 := by omega
        obtain ⟨z', hz'⟩ := hsc'
        obtain ⟨u, hu⟩ : ∃ u : ℤ, intPartQ e = 2 * u := ⟨intPartQ e / 2, by omega⟩
        have hz'le : (z' : ℚ) / 10 ^ 16 ≤ (u : ℚ) + 1 / (2 * 10 ^ 16) := by
          rw [← hz']
          have : (intPartQ e : ℚ) = 2 * (u : ℚ) := by rw [hu]; push_cast; ring
          linarith
        have hzu : z' ≤ u * 10 ^ 16 := by
          have h' : (z' : ℚ) < ((u * 10 ^ 16 + 1 : ℤ) : ℚ) := by
            rw [div_le_iff₀ (by norm_num : (0:ℚ) < 10 ^ 16)] at hz'le
            push_cast
            linarith
          have hzz : z' < u * 10 ^ 16 + 1 := by exact_mod_cast h'
          omega
        have he'leu : divRound16 e 2 ≤ (u : ℚ) := by
          rw [hz', div_le_iff₀ (by norm_num : (0:ℚ) < 10 ^ 16)]
          calc (z' : ℚ) ≤ ((u * 10 ^ 16 : ℤ) : ℚ) := by exact_mod_cast hzu
            _ = (u : ℚ) * 10 ^ 16 := by push_cast; ring
        have hu1 : u ≤ -1 := by omega
        have ht'ne : intPartQ (divRound16 e 2) ≠ 0 := by
          have hle : intPartQ (divRound16 e 2) ≤ u := by
            rw [intPartQ_eq_rceil_of_nonpos _ he'0, rceil_eq]
            exact Int.ceil_le.mpr he'leu
          omega
        have hlt := ihlt ht'ne
        refine ⟨mul_nonneg ih0 ih0, le_of_lt (by nlinarith), fun _ => by nlinarith⟩
      · have hneg : ¬ 0 < intPartQ e := by omega
        rw [powAux_odd_neg d fuel e (intPartQ e) rfl h0 hpar hneg]
        have hd0 : (0:ℚ) < d := by
          have : (0:ℚ) < 1 + 1 / 10 ^ 16 := by norm_num
          linarith
        have htt1 : powAux d fuel (divRound16 e 2) * powAux d fuel (divRound16 e 2) ≤ 1 := by
          nlinarith
        have htt0 : 0 ≤ powAux d fuel (divRound16 e 2) * powAux d fuel (divRound16 e 2) :=
          mul_nonneg ih0 ih0
        have hub2 : divRound16 (powAux d fuel (divRound16 e 2) * powAux d fuel (divRound16 e 2)) d
            ≤ 1 / d + 1 / (2 * 10 ^ 16) := by
          have h1 := divRound16_le
            (powAux d fuel (divRound16 e 2) * powAux d fuel (divRound16 e 2)) d
          have h2 : (powAux d fuel (divRound16 e 2) * powAux d fuel (divRound16 e 2)) / d
              ≤ 1 / d := by gcongr
          linarith
        have h1d : 1 / d ≤ 1 / (1 + 1 / 10 ^ 16) := by
          apply one_div_le_one_div_of_le (by norm_num) hd
        have hlt : divRound16 (powAux d fuel (divRound16 e 2) * powAux d fuel (divRound16 e 2)) d
            < 1 := by
          have hnn : (1:ℚ) / (1 + 1 / 10 ^ 16) + 1 / (2 * 10 ^ 16) < 1 := by norm_num
          linarith
        have hge : 0 ≤ divRound16
            (powAux d fuel (divRound16 e 2) * powAux d fuel (divRound16 e 2)) d :=
          divRound16_nonneg _ d (by positivity)
        exact ⟨hge, le_of_lt hlt, fun _ => hlt⟩

theorem daysInMonth_ge28 (y m : ℤ) : 28 ≤ daysInMonth y m := by
  rw [daysInMonth]
  split
  · split <;> norm_num
  · split <;> norm_num

/-- Claim C1.  The spec's concrete scenario (totalLoanAmount 2000, rate
1.0, 2 months, start 2018-01-01) is supposed to yield payments carrying
paymentAmount 1001.25, interest 1.67, principal 999.58 and the outstanding
principals.  The code instead returns the two correct dates with every
monetary field equal to the zero decimal: the amortization computation of
`CreatePlan` is unimplemented (its body says `TODO: handle corner cases`),
contradicting the repository's own `api.md`, which documents fully
populated amounts. -/
theorem createPlan_scenario_2000_code_behavior :
    CreatePlan 2000 1 2 ⟨2018, 1, 1, 0, 0, 0, 0⟩ =
      .ok [⟨⟨2018, 1, 1⟩, 0, 0, 0, 0, 0⟩, ⟨⟨2018, 2, 1⟩, 0, 0, 0, 0, 0⟩] := rfl

/-- Claim C2.  A start date with day-of-month 29 is supposed to make
`CreatePlan` fail with `InvalidParameter` (the package's own tests,
`ErrorOnStartDateDay29/30/31`, expect exactly that).  The code performs no
validation at all: it returns a schedule and a nil error, and the invalid
day even rolls 2021-02-29 over into 2021-03-01. -/
theorem createPlan_day29_code_behavior :
    CreatePlan 5000 5 3 ⟨2020, 12, 29, 0, 0, 0, 0⟩ =
      .ok [⟨⟨2020, 12, 29⟩, 0, 0, 0, 0, 0⟩, ⟨⟨2021, 1, 29⟩, 0, 0, 0, 0, 0⟩,
        ⟨⟨2021, 3, 1⟩, 0, 0, 0, 0, 0⟩] := rfl

/-- Claim C3.  For non-positive duration, loan amount or rate,
`CalculateAnnuity` does fail with `InvalidParameter`, but `CreatePlan`
does not: it returns a schedule with a nil error (and panics for negative
durations), contradicting its own doc comment, which promises an error
for invalid parameters such as a zero duration. -/
theorem createPlan_validation_divergence :
    (CalculateAnnuity 500 3 0 = .err .invalidParameter ∧
      CreatePlan 500 3 0 ⟨2018, 1, 1, 0, 0, 0, 0⟩ = .ok []) ∧
    (CalculateAnnuity 500 3 (-1) = .err .invalidParameter ∧
      CreatePlan 500 3 (-1) ⟨2018, 1, 1, 0, 0, 0, 0⟩ = .panicked) ∧
    (CalculateAnnuity (-10) 3 2 = .err .invalidParameter ∧
      CreatePlan (-10) 3 2 ⟨2018, 1, 1, 0, 0, 0, 0⟩ =
        .ok [⟨⟨2018, 1, 1⟩, 0, 0, 0, 0, 0⟩, ⟨⟨2018, 2, 1⟩, 0, 0, 0, 0, 0⟩]) ∧
    (CalculateAnnuity 10 0 2 = .err .invalidParameter ∧
      CreatePlan 10 0 2 ⟨2018, 1, 1, 0, 0, 0, 0⟩ =
        .ok [⟨⟨2018, 1, 1⟩, 0, 0, 0, 0, 0⟩, ⟨⟨2018, 2, 1⟩, 0, 0, 0, 0, 0⟩]) :=
  ⟨⟨by norm_num [CalculateAnnuity], rfl⟩,
   ⟨by norm_num [CalculateAnnuity], rfl⟩,
   ⟨by norm_num [CalculateAnnuity], rfl⟩,
   ⟨by norm_num [CalculateAnnuity], rfl⟩⟩

/-- Claim C4.  On every valid input (positive amount, rate and duration,
day-of-month at most 28) `CreatePlan` succeeds and every payment of the
schedule has paymentAmount, interest, principal,
initialOutstandingPrincipal and remainingOutstandingPrincipal all equal to
the zero decimal: only the date is populated.  (The embedded `CreatePlan`
contains no call to `CalculateAnnuity`, mirroring the Go code.) -/
theorem createPlan_fields_zero (a r : ℚ) (n : ℤ) (s : GoTime)
    (ha : 0 < a) (hr : 0 < r) (hn : 0 < n) (hd1 : 1 ≤ s.day) (hd2 : s.day ≤ 28) :
    ∃ ps, CreatePlan a r n s = .ok ps ∧ ∀ p ∈ ps,
      p.paymentAmount = 0 ∧ p.interest = 0 ∧ p.principal = 0 ∧
      p.initialOutstandingPrincipal = 0 ∧ p.remainingOutstandingPrincipal = 0 := by
  refine ⟨_, by rw [CreatePlan, if_neg (by omega : ¬ n < 0)], ?_⟩
  intro p hp
  simp only [List.mem_map] at hp
  obtain ⟨i, _, rfl⟩ := hp
  exact ⟨rfl, rfl, rfl, rfl, rfl⟩

/-- Witness for claim C4 at the concrete input 2000, 1, 2 months,
start 2018-01-01. -/
theorem createPlan_fields_zero_witness :
    ((0:ℚ) < 2000 ∧ (0:ℚ) < 1 ∧ (0:ℤ) < 2 ∧ (1:ℤ) ≤ 1 ∧ (1:ℤ) ≤ 28) ∧
    (∃ ps, CreatePlan 2000 1 2 ⟨2018, 1, 1, 0, 0, 0, 0⟩ = .ok ps ∧ ∀ p ∈ ps,
      p.paymentAmount = 0 ∧ p.interest = 0 ∧ p.principal = 0 ∧
      p.initialOutstandingPrincipal = 0 ∧ p.remainingOutstandingPrincipal = 0) :=
  ⟨⟨by norm_num, by norm_num, by norm_num, by norm_num, by norm_num⟩,
    createPlan_fields_zero 2000 1 2 ⟨2018, 1, 1, 0, 0, 0, 0⟩
      (by norm_num) (by norm_num) (by norm_num) (by decide) (by decide)⟩

/-- Claim C5.  `CalculateAnnuity(5000.0, 5.0, 24)` returns exactly 219.36,
and 219.36 is also the value of the spec's exact formula
`(totalLoanAmount * r) / (1 - (1 + r)^(-durationInMonths))` with
`r = (5/100)/12`, rounded to 2 decimal places half-to-even. -/
theorem calculateAnnuity_5000_5_24 :
    CalculateAnnuity 5000 5 24 = .ok (219.36 : ℚ) ∧
    annuitySpecFormula 5000 5 24 = (219.36 : ℚ) := by
  have h : (219.36 : ℚ) = 5484 / 25 := by norm_num
  rw [h]
  exact ⟨annuity5000_24_value, annuitySpec_5000_5_24⟩

/-- Claim C6.  On every valid input, payment `i` of the schedule is dated
`year/month+i/day` at UTC midnight with month overflow rolling into the
year (floor division by 12), the start date's time-of-day and offset are
discarded (two starts with the same wall-clock year, month and day give
identical schedules), and the spec's year-boundary example
2020-12-28 + 3 months yields 2020-12-28, 2021-01-28, 2021-02-28. -/
theorem createPlan_dates (a r : ℚ) (n : ℤ) (s : GoTime)
    (ha : 0 < a) (hr : 0 < r) (hn : 0 < n) (hm1 : 1 ≤ s.month) (hm2 : s.month ≤ 12)
    (hd1 : 1 ≤ s.day) (hd2 : s.day ≤ 28) :
    (∃ ps, CreatePlan a r n s = .ok ps ∧
      ∀ (i : ℕ) (h : i < ps.length),
        (ps.get ⟨i, h⟩).date =
          ⟨s.year + (s.month + i - 1).fdiv 12, (s.month + i - 1).emod 12 + 1, s.day⟩) ∧
    (∀ t : GoTime, t.year = s.year → t.month = s.month → t.day = s.day →
      CreatePlan a r n t = CreatePlan a r n s) ∧
    CreatePlan 5000 5 3 ⟨2020, 12, 28, 0, 0, 0, 0⟩ =
      .ok [⟨⟨2020, 12, 28⟩, 0, 0, 0, 0, 0⟩, ⟨⟨2021, 1, 28⟩, 0, 0, 0, 0, 0⟩,
        ⟨⟨2021, 2, 28⟩, 0, 0, 0, 0, 0⟩] := by
  refine ⟨⟨_, by rw [CreatePlan, if_neg (by omega : ¬ n < 0)], ?_⟩, ?_, by rfl⟩
  · intro i h
    simp only [List.get_eq_getElem, List.getElem_map, List.getElem_range]
    have hgd := daysInMonth_ge28 (s.year + (s.month + (i : ℤ) - 1).fdiv 12)
      ((s.month + (i : ℤ) - 1).emod 12 + 1)
    simp only [timeDate, normMonth]
    rw [if_neg (by omega)]
  · intro t h1 h2 h3
    rw [CreatePlan, CreatePlan, h1, h2, h3]

/-- Witness for claim C6 at the spec's year-boundary input 5000, 5,
3 months, start 2020-12-28 at noon with a nonzero offset. -/
theorem createPlan_dates_witness :
    ((0:ℚ) < 5000 ∧ (0:ℚ) < 5 ∧ (0:ℤ) < 3 ∧
      (1:ℤ) ≤ 12 ∧ (12:ℤ) ≤ 12 ∧ (1:ℤ) ≤ 28 ∧ (28:ℤ) ≤ 28) ∧
    ((∃ ps, CreatePlan 5000 5 3 ⟨2020, 12, 28, 12, 0, 0, 3600⟩ = .ok ps ∧
      ∀ (i : ℕ) (h : i < ps.length),
        (ps.get ⟨i, h⟩).date =
          ⟨2020 + ((12:ℤ) + i - 1).fdiv 12, ((12:ℤ) + i - 1).emod 12 + 1, 28⟩) ∧
    (∀ t : GoTime, t.year = 2020 → t.month = 12 → t.day = 28 →
      CreatePlan 5000 5 3 t = CreatePlan 5000 5 3 ⟨2020, 12, 28, 12, 0, 0, 3600⟩) ∧
    CreatePlan 5000 5 3 ⟨2020, 12, 28, 0, 0, 0, 0⟩ =
      .ok [⟨⟨2020, 12, 28⟩, 0, 0, 0, 0, 0⟩, ⟨⟨2021, 1, 28⟩, 0, 0, 0, 0, 0⟩,
        ⟨⟨2021, 2, 28⟩, 0, 0, 0, 0, 0⟩]) :=
  ⟨⟨by norm_num, by norm_num, by norm_num, by norm_num, by norm_num, by norm_num,
      by norm_num⟩,
    createPlan_dates 5000 5 3 ⟨2020, 12, 28, 12, 0, 0, 3600⟩
      (by norm_num) (by norm_num) (by norm_num) (by decide) (by decide)
      (by decide) (by decide)⟩

/-- Claim C7.  On every valid input the schedule returned by `CreatePlan`
has length exactly `durationInMonths`. -/
theorem createPlan_schedule_length (a r : ℚ) (n : ℤ) (s : GoTime)
    (ha : 0 < a) (hr : 0 < r) (hn : 0 < n) (hd1 : 1 ≤ s.day) (hd2 : s.day ≤ 28) :
    ∃ ps, CreatePlan a r n s = .ok ps ∧ (ps.length : ℤ) = n := by
  refine ⟨_, by rw [CreatePlan, if_neg (by omega : ¬ n < 0)], ?_⟩
  rw [List.length_map, List.length_range]
  omega

/-- Witness for claim C7 at the concrete input 2000, 1, 2 months,
start 2018-01-01. -/
theorem createPlan_schedule_length_witness :
    ((0:ℚ) < 2000 ∧ (0:ℚ) < 1 ∧ (0:ℤ) < 2 ∧ (1:ℤ) ≤ 1 ∧ (1:ℤ) ≤ 28) ∧
    (∃ ps, CreatePlan 2000 1 2 ⟨2018, 1, 1, 0, 0, 0, 0⟩ = .ok ps ∧
      (ps.length : ℤ) = 2) :=
  ⟨⟨by norm_num, by norm_num, by norm_num, by norm_num, by norm_num⟩,
    createPlan_schedule_length 2000 1 2 ⟨2018, 1, 1, 0, 0, 0, 0⟩
      (by norm_num) (by norm_num) (by norm_num) (by decide) (by decide)⟩

/-- Claim C8.  On every schedule returned successfully for a valid input,
payment `i`'s remainingOutstandingPrincipal equals payment `i+1`'s
initialOutstandingPrincipal, and the last payment's
remainingOutstandingPrincipal is exactly zero.  (On this code all those
fields are the zero decimal, so the chained invariant holds.) -/
theorem createPlan_outstanding_chain (a r : ℚ) (n : ℤ) (s : GoTime) (ps : List Payment)
    (ha : 0 < a) (hr : 0 < r) (hn : 0 < n) (hd1 : 1 ≤ s.day) (hd2 : s.day ≤ 28)
    (hps : CreatePlan a r n s = .ok ps) :
    (∀ (i : ℕ) (h1 : i < ps.length) (h2 : i + 1 < ps.length),
      (ps.get ⟨i, h1⟩).remainingOutstandingPrincipal =
        (ps.get ⟨i + 1, h2⟩).initialOutstandingPrincipal) ∧
    (∀ h : ps ≠ [], (ps.getLast h).remainingOutstandingPrincipal = 0) := by
  rw [CreatePlan, if_neg (by omega : ¬ n < 0)] at hps
  injection hps with hps
  subst hps
  constructor
  · intro i h1 h2
    simp only [List.get_eq_getElem, List.getElem_map]
  · intro h
    obtain ⟨i, _, hfi⟩ := List.mem_map.mp (List.getLast_mem h)
    rw [← hfi]

/-- Witness for claim C8 at the concrete input 2000, 1, 2 months,
start 2018-01-01 with its concrete schedule. -/
theorem createPlan_outstanding_chain_witness :
    ((0:ℚ) < 2000 ∧ (0:ℚ) < 1 ∧ (0:ℤ) < 2 ∧ (1:ℤ) ≤ 1 ∧ (1:ℤ) ≤ 28 ∧
      CreatePlan 2000 1 2 ⟨2018, 1, 1, 0, 0, 0, 0⟩ =
        .ok [⟨⟨2018, 1, 1⟩, 0, 0, 0, 0, 0⟩, ⟨⟨2018, 2, 1⟩, 0, 0, 0, 0, 0⟩]) ∧
    ((∀ (i : ℕ)
        (h1 : i < ([⟨⟨2018, 1, 1⟩, 0, 0, 0, 0, 0⟩,
          ⟨⟨2018, 2, 1⟩, 0, 0, 0, 0, 0⟩] : List Payment).length)
        (h2 : i + 1 < ([⟨⟨2018, 1, 1⟩, 0, 0, 0, 0, 0⟩,
          ⟨⟨2018, 2, 1⟩, 0, 0, 0, 0, 0⟩] : List Payment).length),
        (([⟨⟨2018, 1, 1⟩, 0, 0, 0, 0, 0⟩,
          ⟨⟨2018, 2, 1⟩, 0, 0, 0, 0, 0⟩] : List Payment).get
            ⟨i, h1⟩).remainingOutstandingPrincipal =
          (([⟨⟨2018, 1, 1⟩, 0, 0, 0, 0, 0⟩,
            ⟨⟨2018, 2, 1⟩, 0, 0, 0, 0, 0⟩] : List Payment).get
              ⟨i + 1, h2⟩).initialOutstandingPrincipal) ∧
      (∀ h : ([⟨⟨2018, 1, 1⟩, 0, 0, 0, 0, 0⟩,
          ⟨⟨2018, 2, 1⟩, 0, 0, 0, 0, 0⟩] : List Payment) ≠ [],
        (([⟨⟨2018, 1, 1⟩, 0, 0, 0, 0, 0⟩,
          ⟨⟨2018, 2, 1⟩, 0, 0, 0, 0, 0⟩] : List Payment).getLast
            h).remainingOutstandingPrincipal = 0)) :=
  ⟨⟨by norm_num, by norm_num, by norm_num, by norm_num, by norm_num, rfl⟩,
    createPlan_outstanding_chain 2000 1 2 ⟨2018, 1, 1, 0, 0, 0, 0⟩
      [⟨⟨2018, 1, 1⟩, 0, 0, 0, 0, 0⟩, ⟨⟨2018, 2, 1⟩, 0, 0, 0, 0, 0⟩]
      (by norm_num) (by norm_num) (by norm_num) (by decide) (by decide) rfl⟩

/-- Counterexample to claim C9 as stated: for the positive rate `1e-16`
the 16-digit divisions round the monthly rate to zero, the denominator
`1 - (1 + 0)^(-24)` is exactly zero, and the final division panics, so the
computation after the precondition checks is not total. -/
theorem calculateAnnuity_tiny_rate_panics :
    CalculateAnnuity 5000 (1 / 10 ^ 16) 24 = .panicked := by
  have hm : fromPercentToDecimal (calculateMonthlyInterestRate (1 / 10 ^ 16)) = 0 := by
    rw [calculateMonthlyInterestRate, fromPercentToDecimal]
    rw [divRound16_of_nonneg (1 / 10 ^ 16) 12 0 (by norm_num) (by norm_num) (by norm_num)]
    rw [divRound16_of_nonneg _ 100 0 (by norm_num) (by norm_num) (by norm_num)]
    norm_num
  have hpow : decimalPow (1 + (0:ℚ)) (-24) = 1 := by
    simp only [decimalPow_neg24]
    rw [divRound16_of_nonneg (1 * 1) (1 + (0:ℚ)) 10000000000000000
      (by norm_num) (by norm_num) (by norm_num)]
    rw [divRound16_of_nonneg _ (1 + (0:ℚ)) 10000000000000000
      (by norm_num) (by norm_num) (by norm_num)]
    norm_num
  rw [CalculateAnnuity]
  rw [if_neg (by norm_num : ¬ (24:ℤ) ≤ 0), if_neg (by norm_num : ¬ (5000:ℚ) ≤ 0),
    if_neg (by norm_num : ¬ (1 / 10 ^ 16 : ℚ) ≤ 0)]
  simp only [hm]
  rw [show (-(((24 : ℤ)) : ℚ)) = (-24 : ℚ) from by norm_num]
  rw [hpow]
  rw [if_pos (by norm_num)]

/-- Claim C9, amended.  For inputs passing the precondition checks whose
computed monthly rate `(rate/12)/100` (16-digit divisions) is nonzero, the
denominator `1 - (1 + r)^(-durationInMonths)` is strictly positive, so the
final division is well defined and `CalculateAnnuity` returns a value with
no error.  (Without the nonzero-monthly-rate condition the statement is
false: see the tiny-rate counterexample.) -/
theorem calculateAnnuity_total_amended (amount rate : ℚ) (n : ℤ)
    (hn : 0 < n) (ha : 0 < amount) (hr : 0 < rate)
    (hm : fromPercentToDecimal (calculateMonthlyInterestRate rate) ≠ 0) :
    0 < 1 - decimalPow (1 + fromPercentToDecimal (calculateMonthlyInterestRate rate)) (-n) ∧
    ∃ v, CalculateAnnuity amount rate n = .ok v := by
  set m := fromPercentToDecimal (calculateMonthlyInterestRate rate) with hmdef
  have hm0 : 0 ≤ m := by
    rw [hmdef, fromPercentToDecimal]
    apply divRound16_nonneg
    apply div_nonneg _ (by norm_num)
    rw [calculateMonthlyInterestRate]
    apply divRound16_nonneg
    positivity
  obtain ⟨z, hz⟩ : ∃ z : ℤ, m = (z : ℚ) / 10 ^ 16 := by
    rw [hmdef, fromPercentToDecimal]; exact divRound16_scaled _ _
  have hz0 : 0 ≤ z := by
    by_contra hneg
    push_neg at hneg
    have hq : (z : ℚ) < 0 := by exact_mod_cast hneg
    have : m < 0 := by
      rw [hz]
      exact div_neg_of_neg_of_pos hq (by norm_num)
    linarith
  have hzne : z ≠ 0 := by
    intro h
    exact hm (by rw [hz, h]; norm_num)
  have hz1 : 1 ≤ z := by omega
  have hd : 1 + 1 / 10 ^ 16 ≤ 1 + m := by
    have : (1 : ℚ) / 10 ^ 16 ≤ (z : ℚ) / 10 ^ 16 := by
      gcongr
      exact_mod_cast hz1
    linarith [hz ▸ this]
  have hE : intPartQ (-(n : ℚ)) = -n := by
    have h := intPartQ_intCast (-n)
    rwa [show (((-n : ℤ)) : ℚ) = -(n : ℚ) from by push_cast; ring] at h
  have hele : -(n : ℚ) ≤ 0 := by
    have : (0 : ℚ) ≤ (n : ℚ) := by exact_mod_cast le_of_lt hn
    linarith
  have hesc : ∃ z' : ℤ, -(n : ℚ) = (z' : ℚ) / 10 ^ 16 :=
    ⟨-n * 10 ^ 16, by push_cast; rw [mul_div_assoc]; norm_num⟩
  have hmu : 2 * (intPartQ (-(n : ℚ))).natAbs +
      (if ((intPartQ (-(n : ℚ)) : ℤ) : ℚ) = -(n : ℚ) then 0 else 1) <
      2 * (intPartQ (-(n : ℚ))).natAbs + 2 := by
    have : (if ((intPartQ (-(n : ℚ)) : ℤ) : ℚ) = -(n : ℚ) then 0 else 1) ≤ 1 := by
      split <;> norm_num
    omega
  obtain ⟨hP0, hP1, hPlt⟩ :=
    powAux_bounds (1 + m) hd (2 * (intPartQ (-(n : ℚ))).natAbs + 2) (-(n : ℚ)) hele hesc hmu
  have hne : intPartQ (-(n : ℚ)) ≠ 0 := by rw [hE]; omega
  have hlt : powAux (1 + m) (2 * (intPartQ (-(n : ℚ))).natAbs + 2) (-(n : ℚ)) < 1 := hPlt hne
  have hpos : 0 < 1 - decimalPow (1 + m) (-(n : ℚ)) := by
    rw [decimalPow]
    linarith
  constructor
  · exact hpos
  · rw [CalculateAnnuity]
    rw [if_neg (by omega : ¬ n ≤ 0), if_neg (by linarith : ¬ amount ≤ 0),
      if_neg (by linarith : ¬ rate ≤ 0)]
    rw [← hmdef]
    rw [if_neg (ne_of_gt hpos)]
    exact ⟨_, rfl⟩

/-- Witness for claim C9 (amended) at the input 5000, 5, 24 months. -/
theorem calculateAnnuity_total_amended_witness :
    ((0:ℤ) < 24 ∧ (0:ℚ) < 5000 ∧ (0:ℚ) < 5 ∧
      fromPercentToDecimal (calculateMonthlyInterestRate 5) ≠ 0) ∧
    ∃ v, CalculateAnnuity 5000 5 24 = .ok v :=
  ⟨⟨by norm_num, by norm_num, by norm_num, by rw [monthlyRate5]; norm_num⟩,
    (calculateAnnuity_total_amended 5000 5 24 (by norm_num) (by norm_num) (by norm_num)
      (by rw [monthlyRate5]; norm_num)).2⟩

/-- Claim C10.  For every negative duration `CreatePlan` returns no error
value at all: allocating the payment slice with a negative length is a
runtime panic instead of the `InvalidParameter` failure a caller might
expect. -/
theorem createPlan_negative_duration_panics (a r : ℚ) (n : ℤ) (s : GoTime)
    (hn : n < 0) : CreatePlan a r n s = .panicked := by
  rw [CreatePlan, if_pos hn]

/-- Witness for claim C10 at duration -1. -/
theorem createPlan_negative_duration_panics_witness :
    ((-1:ℤ) < 0) ∧ CreatePlan 2000 1 (-1) ⟨2018, 1, 1, 0, 0, 0, 0⟩ = .panicked :=
  ⟨by norm_num,
    createPlan_negative_duration_panics 2000 1 (-1) ⟨2018, 1, 1, 0, 0, 0, 0⟩ (by norm_num)⟩

end Loaner
